import Mathlib

/-!
Verification of the distributed job-queue coordination layer of the
`ffmpeg-rest` GPU worker fleet (directory `gpu-worker/`).

The development shallowly embeds:

* `worker/queue_client.py` (`BullMQClient`): the Redis-backed queue store is a
  `RedisState` record (wait list, active list, completed/failed sorted sets and
  the per-job hashes); `get_next_job`, `mark_completed`, `mark_failed` and
  `update_progress` are pure state transformers.  The wall clock is passed
  explicitly (`now_ms`, `now_s`); Python dicts are association lists with
  unique keys; JSON decoding of the hash's `data` field is abstracted by the
  `DataField` inductive (a raw value either decodes to a payload dict, or
  fails, or is absent, in which case the code defaults it to `"{}"`).
* `workers/{zimage,wav2lip,ltx2}/main.py`: each worker's per-job processing is
  a function from the outcomes of the external collaborators (executor,
  result sink, downloads) to the list of queue-client calls it issues and, for
  the workers that create scratch files, the resulting local filesystem.
  Exceptions are `Except`; Python's `try/except/finally` becomes case
  analysis.  The idle/shutdown lifecycle of the polling loop is `pollLoop`.
* `worker/config.py` (`Settings`): the set of attribute names the class
  defines, with Python attribute lookup returning `AttributeError` for
  anything else.

Lists model Redis lists with index 0 as the head (the `LPUSH` side);
`BRPOPLPUSH` pops from the tail.
-/

namespace FFmpegRest

/-- Python dict with string keys and values, as an association list with
unique keys; also used for the decoded JSON payload. -/
abbrev Dict := List (String × String)

/-- Dict lookup (`d.get(k)` / `d[k]`): the first binding of the key. -/
def dictGet (m : Dict) (k : String) : Option String :=
  match m with
  | [] => none
  | (k', v) :: t => if k' = k then some v else dictGet t k

/-- Dict lookup with default (`d.get(k, dflt)`). -/
def dictGetD (m : Dict) (k dflt : String) : String :=
  (dictGet m k).getD dflt

/-- Dict update (`d[k] = v`): overwrite the existing binding, else append. -/
def dictSet (m : Dict) (k v : String) : Dict :=
  match m with
  | [] => [(k, v)]
  | (k', v') :: t => if k' = k then (k, v) :: t else (k', v') :: dictSet t k v

/-- The dict `{"id": job_id, **data}` built by `BullMQClient.get_next_job`
line 79: start from `{"id": job_id}` and insert the payload's bindings in
order, later bindings overwriting earlier ones. -/
def mkJob (job_id : String) (data : Dict) : Dict :=
  data.foldl (fun m kv => dictSet m kv.1 kv.2) [("id", job_id)]

/-- The raw string stored under the hash field `data`, abstracted by what
`json.loads` does with it: the field may be absent (the code defaults it to
`"{}"`, which decodes to the empty object), decode to a payload object, or
fail to decode (`json.JSONDecodeError`). -/
inductive DataField
  | missing
  | valid (payload : Dict)
  | invalid
  deriving DecidableEq, Repr

/-- Result of `json.loads(job_hash.get(b"data", b"{}"))`: `none` means the
call raises `json.JSONDecodeError`. -/
def decodeData : DataField → Option Dict
  | .missing => some []
  | .valid payload => some payload
  | .invalid => none

/-- The per-job Redis hash `bull:ffmpeg-jobs:{id}`, restricted to the fields
the client reads or writes. -/
structure JobHash where
  data : DataField := .missing
  progress : Option String := none
  returnvalue : Option String := none
  failedReason : Option String := none
  processedOn : Option String := none
  finishedOn : Option String := none
  deriving DecidableEq, Repr

/-- The queue store: `bull:ffmpeg-jobs:wait` and `:active` lists (index 0 is
the head), `:completed` and `:failed` sorted sets (member with score), and the
per-job hashes keyed by job id (`HGETALL` of an absent key gives the falsy
empty dict, modelled by a failing lookup). -/
structure RedisState where
  wait : List String
  active : List String
  completed : List (String × Nat)
  failed : List (String × Nat)
  hashes : List (String × JobHash)
  deriving DecidableEq, Repr

/-- `LREM key 1 v`: remove the first occurrence of `v`, scanning from the
head. -/
def lrem1 : List String → String → List String
  | [], _ => []
  | x :: xs, v => if x = v then xs else x :: lrem1 xs v

/-- `ZADD key score member`: update the member's score if present, else add
the member. -/
def zadd : List (String × Nat) → String → Nat → List (String × Nat)
  | [], m, sc => [(m, sc)]
  | (m', sc') :: t, m, sc => if m' = m then (m, sc) :: t else (m', sc') :: zadd t m sc

/-- Membership of a member in a sorted set. -/
def zMember (zs : List (String × Nat)) (m : String) : Bool :=
  zs.any (fun p => p.1 = m)

/-- Look up a job's hash; `none` models `HGETALL` returning the empty (falsy)
dict for an absent key. -/
def hashGet (hs : List (String × JobHash)) (id : String) : Option JobHash :=
  match hs with
  | [] => none
  | (k, h) :: t => if k = id then some h else hashGet t id

/-- `HSET` on a job's hash: update the stored hash through `f`, creating the
hash from the empty one if the key is absent (Redis creates keys on write). -/
def hashUpd : List (String × JobHash) → String → (JobHash → JobHash) → List (String × JobHash)
  | [], id, f => [(id, f {})]
  | (k, h) :: t, id, f => if k = id then (k, f h) :: t else (k, h) :: hashUpd t id f

/-- `BullMQClient.get_next_job` (queue_client.py lines 36–86).  `BRPOPLPUSH`
pops the tail of `wait` onto the head of `active` (an empty `wait` models the
timeout, returning `None`); then the job hash is read; a missing hash removes
the stray id from `active`; a payload that fails to decode is caught
(`json.JSONDecodeError`) and the id stays parked in `active`; a `type` field
different from the client's queue name sends the id back to the head of
`wait`; otherwise the job dict `{"id": job_id, **data}` is returned. -/
def get_next_job (queue_name : String) (s : RedisState) : Option Dict × RedisState :=
  match s.wait.getLast? with
  | none => (none, s)
  | some job_id =>
    let s1 : RedisState :=
      { s with wait := s.wait.dropLast, active := job_id :: s.active }
    match hashGet s1.hashes job_id with
    | none =>
      (none, { s1 with active := lrem1 s1.active job_id })
    | some h =>
      match decodeData h.data with
      | none => (none, s1)
      | some data =>
        let job_type := dictGetD data "type" ""
        if job_type = queue_name then
          (some (mkJob job_id data), s1)
        else
          (none, { s1 with
                    active := lrem1 s1.active job_id,
                    wait := job_id :: s1.wait })

/-- `BullMQClient.mark_completed` (lines 88–115), on the error-free store
path: `HSET` stores the serialised result and sets both `finishedOn` and
`processedOn` to the current millisecond epoch, then `LREM` removes the id
from `active` and `ZADD` adds it to `completed` with the current time as
score.  (`redis.RedisError` is caught and logged in the source; the modelled
fragment is the successful execution.) -/
def mark_completed (s : RedisState) (job_id result : String) (now_ms now_s : Nat) :
    RedisState :=
  let s1 := { s with
    hashes := hashUpd s.hashes job_id (fun h =>
      { h with
        returnvalue := some result,
        finishedOn := some (toString now_ms),
        processedOn := some (toString now_ms) }) }
  { s1 with
    active := lrem1 s1.active job_id,
    completed := zadd s1.completed job_id now_s }

/-- `BullMQClient.mark_failed` (lines 117–143), on the error-free store path:
`HSET` stores `failedReason` and sets `finishedOn` (only), then the id moves
from `active` to the `failed` sorted set. -/
def mark_failed (s : RedisState) (job_id error : String) (now_ms now_s : Nat) :
    RedisState :=
  let s1 := { s with
    hashes := hashUpd s.hashes job_id (fun h =>
      { h with
        failedReason := some error,
        finishedOn := some (toString now_ms) }) }
  { s1 with
    active := lrem1 s1.active job_id,
    failed := zadd s1.failed job_id now_s }

/-- `BullMQClient.update_progress` (lines 145–155): a single `HSET` of the
`progress` field, wrapped in `try/except redis.RedisError`.  `storeErr`
selects the exceptional path: the store mutation does not happen, the error
is logged, and the method still returns normally (totality of this function
is the embedding of never raising into the caller). -/
def update_progress (s : RedisState) (job_id : String) (progress : Nat)
    (storeErr : Bool) : RedisState :=
  if storeErr then s
  else { s with
    hashes := hashUpd s.hashes job_id (fun h =>
      { h with progress := some (toString progress) }) }

/-- A call a worker makes on its `BullMQClient` while handling one job.  The
webhook notifier (`notify_complete` / `notify_failed` in `webhook.py`)
swallows its own request failures and touches no queue state, so it does not
appear in the trace. -/
inductive QCall
  | progress (id : String) (p : Nat)
  | completed (id result : String)
  | failed (id msg : String)
  deriving DecidableEq, Repr

/-- Whether a queue call is a settlement (`mark_completed` or `mark_failed`). -/
def QCall.isSettle : QCall → Bool
  | .progress _ _ => false
  | .completed _ _ => true
  | .failed _ _ => true

/-- Interpret a worker's queue calls against the store (error-free store, with
the clock fixed for the duration of one settlement). -/
def applyCall (now_ms now_s : Nat) (s : RedisState) (c : QCall) : RedisState :=
  match c with
  | .progress id p => update_progress s id p false
  | .completed id res => mark_completed s id res now_ms now_s
  | .failed id msg => mark_failed s id msg now_ms now_s

/-- zimage `on_progress` (workers/zimage/main.py lines 67–69): Python computes
`5 + int(p * 0.85)` in binary floating point; for integer `p` in `[0, 100]`
that equals `5 + (85 * p) / 100` over `Nat` (the rounded float products stay
on the same side of every integer on this domain). -/
def zimageScale (p : Nat) : Nat := 5 + p * 85 / 100

/-- Binary digit count of a natural number (0 for 0), with an explicit
recursion-depth argument so that kernel reduction (and hence `decide`) works;
a depth of 128 covers every value arising here. -/
def nbits : Nat → Nat → Nat
  | 0, _ => 0
  | fuel + 1, n => if n = 0 then 0 else nbits fuel (n / 2) + 1

/-- The scaling factor 2⁵² between a binary64 significand and its value in
the exponent range used here. -/
def twoPow52 : Nat := 4503599627370496

/-- Evaluate `int(x)` where `x` is the IEEE-754 binary64 product whose exact
value is `N / 2⁵²`: round `N / 2⁵²` to 53 significant bits (round to nearest,
ties to even — what the hardware multiplication does) and truncate toward
zero.  Exact natural-number arithmetic throughout. -/
def fpTruncMul52 (N : Nat) : Nat :=
  let nb := nbits 128 N
  if nb ≤ 53 then N / twoPow52
  else
    let s := nb - 53
    let q := N / 2 ^ s
    let r := N % 2 ^ s
    let half := 2 ^ (s - 1)
    let m := if half < r then q + 1
             else if r < half then q
             else if q % 2 = 0 then q else q + 1
    m * 2 ^ s / twoPow52

/-- The significand of the binary64 value of the Python literal `0.7`:
the double nearest to 0.7 is `3152519739159347 × 2⁻⁵²` (slightly below 0.7,
unlike the doubles for 0.85 and 0.8). -/
def float07 : Nat := 3152519739159347

/-- wav2lip `on_progress` (workers/wav2lip/main.py lines 78–80):
`20 + int(p * 0.7)`, computed in binary64 as the hardware does: the exact
product `p × float07 / 2⁵²` is rounded to 53 bits and truncated.  Unlike the
0.85 and 0.8 scales, this does **not** equal `20 + 70 * p / 100` everywhere
on 0..100: at `p = 90` the product rounds just below 63, so the result is
`20 + 62 = 82`, not 83. -/
def wav2lipScale (p : Nat) : Nat := 20 + fpTruncMul52 (p * float07)

/-- ltx2 `on_progress` (workers/ltx2/main.py lines 69–71):
`10 + int(p * 0.8)`, equal to `10 + (80 * p) / 100` on integer `p ≤ 100`. -/
def ltx2Scale (p : Nat) : Nat := 10 + p * 80 / 100

/-- Outcomes of the external collaborators during one zimage job: the progress
values the executor reported before finishing, the executor's outcome (the
rendered image path, or the exception message), the result sink's outcome
(the public URL), and the post-upload metadata reads
(`get_file_size` / `get_image_info`). -/
structure ZimageRun where
  genProgress : List Nat
  gen : Except String String
  upload : Except String String
  post : Except String Unit
  deriving Repr

/-- The queue calls one iteration of the zimage worker issues for a claimed
job (workers/zimage/main.py lines 56–127): the `try` block reports progress
at 0 and 5, relays executor progress through `zimageScale`, reports 90 after
generation and 100 after the metadata reads, then calls `mark_completed`; any
exception falls to the single `except` handler, which calls `mark_failed`
with the exception's message. -/
def zimageJobTrace (job_id : String) (job : Dict) (r : ZimageRun) : List QCall :=
  let tryRes : List QCall × Option String :=
    let t0 := [QCall.progress job_id 0]
    if dictGetD job "prompt" "" = "" then
      (t0, some "Missing prompt in job data")
    else
      let t1 := t0 ++ [QCall.progress job_id 5] ++
        r.genProgress.map (fun p => QCall.progress job_id (zimageScale p))
      match r.gen with
      | .error msg => (t1, some msg)
      | .ok _ =>
        let t2 := t1 ++ [QCall.progress job_id 90]
        match r.upload with
        | .error msg => (t2, some msg)
        | .ok url =>
          match r.post with
          | .error msg => (t2, some msg)
          | .ok _ => (t2 ++ [QCall.progress job_id 100, QCall.completed job_id url], none)
  match tryRes with
  | (t, none) => t
  | (t, some msg) => t ++ [QCall.failed job_id msg]

/-- One iteration of the worker loop around the claim (the zimage worker as
the representative): when `get_next_job` returns `None` the iteration issues
no queue calls at all; when a job is claimed, `job["id"]` is processed. -/
def workerIteration (queue_name : String) (s : RedisState) (r : ZimageRun) :
    List QCall × RedisState :=
  match get_next_job queue_name s with
  | (none, s') => ([], s')
  | (some job, s') => (zimageJobTrace (dictGetD job "id" "") job r, s')

/-- The idle/shutdown lifecycle shared by all three worker mains (e.g.
workers/zimage/main.py lines 33–47): starting from the given idle
accumulator, consume poll outcomes (`true` = a job was claimed).  On a claim
the accumulator resets to zero; on a miss it grows by the poll timeout and the
loop breaks as soon as it reaches `maxIdle`.  Returns how many polls were
consumed up to and including the one that triggered shutdown, or `none` if
the given outcomes ran out first. -/
def pollLoop (maxIdle pollTimeout : Nat) : Nat → List Bool → Option Nat
  | _, [] => none
  | idle, hit :: rest =>
    if hit then (pollLoop maxIdle pollTimeout 0 rest).map (· + 1)
    else
      if maxIdle ≤ idle + pollTimeout then some 1
      else (pollLoop maxIdle pollTimeout (idle + pollTimeout) rest).map (· + 1)

/-- The worker-local filesystem, as the set of existing paths. -/
abbrev FileSys := List String

/-- Create a file (downloads and the executor write their target path). -/
def fsAdd (fs : FileSys) (p : String) : FileSys :=
  if p ∈ fs then fs else fs ++ [p]

/-- `os.remove`. -/
def fsRemove (fs : FileSys) (p : String) : FileSys :=
  fs.filter (fun q => q ≠ p)

/-- The `finally` block of the worker mains: for each tracked path in order
(`None` models a variable still holding Python `None`), remove it if it
exists. -/
def cleanup : FileSys → List (Option String) → FileSys
  | fs, [] => fs
  | fs, none :: t => cleanup fs t
  | fs, some p :: t => cleanup (if p ∈ fs then fsRemove fs p else fs) t

/-- Outcome of `storage.download_from_url`: success creates the target file;
a failure raises with a message, either after the target file came into
existence (partial write) or before. -/
inductive DlResult
  | ok
  | failCreated (msg : String)
  | failClean (msg : String)
  deriving DecidableEq, Repr

/-- Outcomes of the external collaborators during one wav2lip job. -/
structure Wav2lipRun where
  dlVideo : DlResult
  dlAudio : DlResult
  genProgress : List Nat
  gen : Except String String
  upload : Except String String
  post : Except String Unit
  deriving Repr

/-- One wav2lip job (workers/wav2lip/main.py lines 56–139): the issued queue
calls and the local filesystem after the unconditional `finally` cleanup of
`local_video`, `local_audio` and `output_video` (the last still `None` unless
the executor returned). -/
def wav2lipJob (job_id : String) (job : Dict) (r : Wav2lipRun) (fs : FileSys) :
    List QCall × FileSys :=
  let local_video := "/tmp/" ++ job_id ++ "_input.mp4"
  let local_audio := "/tmp/" ++ job_id ++ "_input.wav"
  let tryRes : List QCall × FileSys × Option String × Option String :=
    let t0 := [QCall.progress job_id 0]
    if dictGetD job "videoUrl" "" = "" then
      (t0, fs, some "Missing videoUrl in job data", none)
    else
      match r.dlVideo with
      | .failClean msg => (t0, fs, some msg, none)
      | .failCreated msg => (t0, fsAdd fs local_video, some msg, none)
      | .ok =>
        let fs1 := fsAdd fs local_video
        let t1 := t0 ++ [QCall.progress job_id 10]
        if dictGetD job "audioUrl" "" = "" then
          (t1, fs1, some "Missing audioUrl in job data", none)
        else
          match r.dlAudio with
          | .failClean msg => (t1, fs1, some msg, none)
          | .failCreated msg => (t1, fsAdd fs1 local_audio, some msg, none)
          | .ok =>
            let fs2 := fsAdd fs1 local_audio
            let t2 := t1 ++ [QCall.progress job_id 20] ++
              r.genProgress.map (fun p => QCall.progress job_id (wav2lipScale p))
            match r.gen with
            | .error msg => (t2, fs2, some msg, none)
            | .ok out =>
              let fs3 := fsAdd fs2 out
              let t3 := t2 ++ [QCall.progress job_id 90]
              match r.upload with
              | .error msg => (t3, fs3, some msg, some out)
              | .ok url =>
                match r.post with
                | .error msg => (t3, fs3, some msg, some out)
                | .ok _ =>
                  (t3 ++ [QCall.progress job_id 100, QCall.completed job_id url],
                   fs3, none, some out)
  match tryRes with
  | (t, fsTry, none, out) =>
    (t, cleanup fsTry [some local_video, some local_audio, out])
  | (t, fsTry, some msg, out) =>
    (t ++ [QCall.failed job_id msg],
     cleanup fsTry [some local_video, some local_audio, out])

/-- Outcomes of the external collaborators during one ltx2 job. -/
structure Ltx2Run where
  dlImage : DlResult
  genProgress : List Nat
  gen : Except String String
  upload : Except String String
  post : Except String Unit
  deriving Repr

/-- One ltx2 job (workers/ltx2/main.py lines 53–129): analogous to
`wav2lipJob` with a single downloaded input (`local_image`) and the rendered
video as the executor's output; the `finally` cleanup covers both. -/
def ltx2Job (job_id : String) (job : Dict) (r : Ltx2Run) (fs : FileSys) :
    List QCall × FileSys :=
  let local_image := "/tmp/" ++ job_id ++ "_input.jpg"
  let tryRes : List QCall × FileSys × Option String × Option String :=
    let t0 := [QCall.progress job_id 0]
    if dictGetD job "imageUrl" "" = "" then
      (t0, fs, some "Missing imageUrl in job data", none)
    else
      match r.dlImage with
      | .failClean msg => (t0, fs, some msg, none)
      | .failCreated msg => (t0, fsAdd fs local_image, some msg, none)
      | .ok =>
        let fs1 := fsAdd fs local_image
        let t1 := t0 ++ [QCall.progress job_id 10] ++
          r.genProgress.map (fun p => QCall.progress job_id (ltx2Scale p))
        match r.gen with
        | .error msg => (t1, fs1, some msg, none)
        | .ok out =>
          let fs2 := fsAdd fs1 out
          let t2 := t1 ++ [QCall.progress job_id 90]
          match r.upload with
          | .error msg => (t2, fs2, some msg, some out)
          | .ok url =>
            match r.post with
            | .error msg => (t2, fs2, some msg, some out)
            | .ok _ =>
              (t2 ++ [QCall.progress job_id 100, QCall.completed job_id url],
               fs2, none, some out)
  match tryRes with
  | (t, fsTry, none, out) =>
    (t, cleanup fsTry [some local_image, out])
  | (t, fsTry, some msg, out) =>
    (t ++ [QCall.failed job_id msg], cleanup fsTry [some local_image, out])

/-- The attribute names the `Settings` class in worker/config.py defines
(class attributes plus the `queue_name` property). -/
def settingsAttrs : List String :=
  ["MODEL_TYPE", "REDIS_URL", "R2_ENDPOINT", "R2_ACCESS_KEY", "R2_SECRET_KEY",
   "R2_BUCKET", "R2_PUBLIC_URL", "API_WEBHOOK_URL", "WEBHOOK_SECRET",
   "WAV2LIP_MODEL_PATH", "ZIMAGE_MODEL_PATH", "MAX_IDLE_SECONDS", "queue_name"]

/-- Python attribute lookup `getattr(settings, a)`: defined attributes resolve
(the value itself is irrelevant here, the name stands in for it); anything
else raises `AttributeError`. -/
def getattrSettings (a : String) : Except String String :=
  if a ∈ settingsAttrs then Except.ok a
  else Except.error ("AttributeError: " ++ a)

/-- Construction events during a worker main's startup, in program order. -/
inductive StartupEvent
  | generatorCreated
  | queueCreated
  | storageCreated
  deriving DecidableEq, Repr

/-- Startup of the ltx2 worker (workers/ltx2/main.py lines 27–30): evaluate
`settings.LTX2_MODEL_PATH`, then construct `LTX2Generator`; evaluate
`settings.REDIS_URL`, then construct `BullMQClient`; construct `R2Storage`.
Returns the construction events that happened and the exception that aborted
startup, if any. -/
def ltx2StartupEvents : List StartupEvent × Option String :=
  match getattrSettings "LTX2_MODEL_PATH" with
  | .error e => ([], some e)
  | .ok _ =>
    match getattrSettings "REDIS_URL" with
    | .error e => ([StartupEvent.generatorCreated], some e)
    | .ok _ =>
      ([StartupEvent.generatorCreated, StartupEvent.queueCreated,
        StartupEvent.storageCreated], none)

/-- `main` of the ltx2 worker: run startup; only if it succeeds enter the
polling loop (with its 5-second poll timeout). -/
def ltx2Main (maxIdle : Nat) (polls : List Bool) : Except String (Option Nat) :=
  match ltx2StartupEvents with
  | (_, some e) => Except.error e
  | (_, none) => Except.ok (pollLoop maxIdle 5 0 polls)

/-- Number of settlement calls in a trace. -/
def settleCount (t : List QCall) : Nat := t.countP QCall.isSettle

/-- Fixture: a zimage-typed job hash with a prompt, as the producer creates
it. -/
def jobHashW (ty : String) : JobHash :=
  { data := DataField.valid [("type", ty), ("prompt", "cat")] }

/-- Fixture: store with job `j1` (of type `ty`) at the claimable end of
`wait`, behind `x`. -/
def stateW (ty : String) : RedisState :=
  { wait := ["x", "j1"], active := [], completed := [], failed := [],
    hashes := [("j1", jobHashW ty)] }

/-- Fixture: store in which `j1` has undecodable `data`. -/
def stateBad : RedisState :=
  { wait := ["x", "j1"], active := ["a0"], completed := [], failed := [],
    hashes := [("j1", { data := DataField.invalid })] }

/-- Fixture: payload that carries its own `id` field. -/
def overridePayload : Dict := [("type", "generate:zimage"), ("id", "payload-id")]

/-- Fixture: store whose job `j1` carries `overridePayload`. -/
def stateOverride : RedisState :=
  { wait := ["j1"], active := [], completed := [], failed := [],
    hashes := [("j1", { data := DataField.valid overridePayload })] }

/-- Fixture: store with `j1` already claimed (in `active`). -/
def stateActive : RedisState :=
  { wait := [], active := ["j1"], completed := [], failed := [],
    hashes := [("j1", jobHashW "generate:zimage")] }

/-- Fixture: a fully successful zimage run. -/
def runZOk : ZimageRun :=
  { genProgress := [40, 80], gen := Except.ok "/tmp/img.png",
    upload := Except.ok "https://r2/out.png", post := Except.ok () }

/-- Fixture: a fully successful wav2lip run. -/
def runWlOk : Wav2lipRun :=
  { dlVideo := DlResult.ok, dlAudio := DlResult.ok, genProgress := [50],
    gen := Except.ok "/tmp/j1_out.mp4", upload := Except.ok "https://r2/out.mp4",
    post := Except.ok () }

/-- Fixture: a fully successful ltx2 run. -/
def runLxOk : Ltx2Run :=
  { dlImage := DlResult.ok, genProgress := [50],
    gen := Except.ok "/tmp/j1_out.mp4", upload := Except.ok "https://r2/out.mp4",
    post := Except.ok () }

/-- The progress percentages reported in a trace, in order. -/
def progressValues (t : List QCall) : List Nat :=
  t.filterMap (fun c =>
    match c with
    | QCall.progress _ v => some v
    | _ => none)

theorem settleCount_append (a b : List QCall) :
    settleCount (a ++ b) = settleCount a + settleCount b :=
  List.countP_append _ _ _

theorem settleCount_progressMap (id : String) (f : Nat → Nat) (l : List Nat) :
    settleCount (l.map fun p => QCall.progress id (f p)) = 0 := by
  unfold settleCount
  rw [List.countP_eq_zero]
  intro c hc
  rcases List.mem_map.mp hc with ⟨p, _, rfl⟩
  simp [QCall.isSettle]

theorem progressValues_append (a b : List QCall) :
    progressValues (a ++ b) = progressValues a ++ progressValues b :=
  List.filterMap_append _ _ _

theorem progressValues_progressMap (id : String) (f : Nat → Nat) (l : List Nat) :
    progressValues (l.map fun p => QCall.progress id (f p)) = l.map f := by
  induction l with
  | nil => rfl
  | cons a t ih =>
    simpa [progressValues, List.filterMap_cons] using ih

theorem update_progress_lists (s : RedisState) (id : String) (p : Nat) (e : Bool) :
    (update_progress s id p e).wait = s.wait ∧
    (update_progress s id p e).active = s.active ∧
    (update_progress s id p e).completed = s.completed ∧
    (update_progress s id p e).failed = s.failed := by
  cases e <;> exact ⟨rfl, rfl, rfl, rfl⟩

theorem applyCall_lists_of_not_settle (ms ss : Nat) (s : RedisState) (c : QCall)
    (h : QCall.isSettle c = false) :
    (applyCall ms ss s c).wait = s.wait ∧
    (applyCall ms ss s c).active = s.active ∧
    (applyCall ms ss s c).completed = s.completed ∧
    (applyCall ms ss s c).failed = s.failed := by
  cases c with
  | progress id p => exact update_progress_lists s id p false
  | completed id res => simp [QCall.isSettle] at h
  | failed id msg => simp [QCall.isSettle] at h

theorem foldl_applyCall_lists (ms ss : Nat) (ps : List QCall)
    (hps : ∀ c ∈ ps, QCall.isSettle c = false) (s : RedisState) :
    (ps.foldl (applyCall ms ss) s).wait = s.wait ∧
    (ps.foldl (applyCall ms ss) s).active = s.active ∧
    (ps.foldl (applyCall ms ss) s).completed = s.completed ∧
    (ps.foldl (applyCall ms ss) s).failed = s.failed := by
  induction ps generalizing s with
  | nil => exact ⟨rfl, rfl, rfl, rfl⟩
  | cons c t ih =>
    have hc := applyCall_lists_of_not_settle ms ss s c (hps c (List.mem_cons_self c t))
    have ht := ih (fun d hd => hps d (List.mem_cons_of_mem c hd)) (applyCall ms ss s c)
    exact ⟨ht.1.trans hc.1, ht.2.1.trans hc.2.1,
           ht.2.2.1.trans hc.2.2.1, ht.2.2.2.trans hc.2.2.2⟩

theorem lrem1_cons_self (v : String) (l : List String) : lrem1 (v :: l) v = l := by
  simp [lrem1]

theorem count_lrem1_self (l : List String) (v : String) :
    (lrem1 l v).count v = l.count v - 1 := by
  induction l with
  | nil => rfl
  | cons x xs ih =>
    by_cases hx : x = v
    · subst hx
      simp [lrem1, List.count_cons_self]
    · simp [lrem1, hx, List.count_cons, ih]

theorem notMem_lrem1_of_count_eq_one (l : List String) (v : String)
    (h : l.count v = 1) : v ∉ lrem1 l v := by
  have hc := count_lrem1_self l v
  rw [h] at hc
  exact List.count_eq_zero.mp hc

theorem zMember_zadd_self (zs : List (String × Nat)) (m : String) (sc : Nat) :
    zMember (zadd zs m sc) m = true := by
  induction zs with
  | nil => simp [zadd, zMember]
  | cons p t ih =>
    obtain ⟨m', sc'⟩ := p
    by_cases hm : m' = m
    · subst hm; simp [zadd, zMember]
    · simpa [zadd, zMember, hm] using ih

theorem hashGet_hashUpd_self (hs : List (String × JobHash)) (id : String)
    (f : JobHash → JobHash) :
    hashGet (hashUpd hs id f) id = some (f ((hashGet hs id).getD {})) := by
  induction hs with
  | nil => simp [hashUpd, hashGet]
  | cons p t ih =>
    obtain ⟨k, h⟩ := p
    by_cases hk : k = id
    · subst hk; simp [hashUpd, hashGet]
    · simp [hashUpd, hashGet, hk, ih]

theorem hashGet_hashUpd_ne (hs : List (String × JobHash)) (id id' : String)
    (f : JobHash → JobHash) (h : id' ≠ id) :
    hashGet (hashUpd hs id f) id' = hashGet hs id' := by
  induction hs with
  | nil =>
    have h' : ¬ (id = id') := fun he => h he.symm
    simp [hashUpd, hashGet, h']
  | cons p t ih =>
    obtain ⟨k, hh⟩ := p
    by_cases hk : k = id
    · subst hk
      have h' : ¬ (k = id') := fun he => h he.symm
      simp [hashUpd, hashGet, h']
    · simp [hashUpd, hashGet, hk, ih]

theorem dictGet_dictSet (m : Dict) (k v k' : String) :
    dictGet (dictSet m k v) k' = if k = k' then some v else dictGet m k' := by
  induction m with
  | nil => simp [dictSet, dictGet]
  | cons p t ih =>
    obtain ⟨k0, v0⟩ := p
    by_cases h0 : k0 = k
    · subst h0
      by_cases h1 : k0 = k' <;> simp [dictSet, dictGet, h1]
    · by_cases h1 : k0 = k'
      · subst h1
        have hkk : ¬ (k = k0) := fun he => h0 he.symm
        simp [dictSet, dictGet, h0, hkk]
      · simp [dictSet, dictGet, h0, h1, ih]

theorem dictGet_eq_none_of_not_mem_keys (m : Dict) (k : String)
    (h : k ∉ m.map Prod.fst) : dictGet m k = none := by
  induction m with
  | nil => rfl
  | cons p t ih =>
    obtain ⟨k0, v0⟩ := p
    simp only [List.map_cons, List.mem_cons] at h
    push_neg at h
    have h0 : ¬ (k0 = k) := fun he => h.1 he.symm
    simp [dictGet, h0, ih h.2]

theorem dictGet_foldl_dictSet (data : Dict) :
    ∀ (m : Dict) (k : String), (data.map Prod.fst).Nodup →
      dictGet (data.foldl (fun acc kv => dictSet acc kv.1 kv.2) m) k =
        (dictGet data k).or (dictGet m k) := by
  induction data with
  | nil =>
    intro m k _
    simp [dictGet]
  | cons kv t ih =>
    intro m k hnd
    obtain ⟨k0, v0⟩ := kv
    simp only [List.map_cons, List.nodup_cons] at hnd
    rw [List.foldl_cons, ih _ k hnd.2]
    by_cases hk : k0 = k
    · subst hk
      rw [dictGet_eq_none_of_not_mem_keys t k0 hnd.1]
      simp [dictGet, dictGet_dictSet]
    · rw [dictGet_dictSet]
      simp [dictGet, hk]

theorem mem_fsAdd (fs : FileSys) (p q : String) :
    q ∈ fsAdd fs p ↔ q ∈ fs ∨ q = p := by
  unfold fsAdd
  by_cases h : p ∈ fs
  · simp only [if_pos h]
    exact ⟨Or.inl, fun hq => hq.elim id (fun he => he ▸ h)⟩
  · rw [if_neg h]
    simp

theorem cleanup_subset :
    ∀ (files : List (Option String)) (fs : FileSys) (q : String),
      q ∈ cleanup fs files → q ∈ fs := by
  intro files
  induction files with
  | nil => intro fs q hq; exact hq
  | cons f t ih =>
    intro fs q hq
    cases f with
    | none => exact ih fs q hq
    | some p =>
      by_cases h : p ∈ fs
      · have hq' : q ∈ fsRemove fs p := by
          refine ih _ q ?_
          simpa [cleanup, h] using hq
        exact (List.mem_filter.mp hq').1
      · refine ih fs q ?_
        simpa [cleanup, h] using hq

theorem notMem_cleanup (files : List (Option String)) (p : String)
    (hp : some p ∈ files) : ∀ fs, p ∉ cleanup fs files := by
  induction files with
  | nil => simp at hp
  | cons f t ih =>
    intro fs
    rcases List.mem_cons.mp hp with he | ht
    · rw [← he]
      show p ∉ cleanup (if p ∈ fs then fsRemove fs p else fs) t
      intro hmem
      have hin := cleanup_subset t _ p hmem
      by_cases h : p ∈ fs
      · rw [if_pos h] at hin
        have := (List.mem_filter.mp hin).2
        simp at this
      · rw [if_neg h] at hin
        exact h hin
    · cases f with
      | none => exact ih ht fs
      | some q => exact ih ht _

theorem mark_completed_proj (s : RedisState) (id res : String) (ms ss : Nat) :
    (mark_completed s id res ms ss).active = lrem1 s.active id ∧
    (mark_completed s id res ms ss).completed = zadd s.completed id ss ∧
    (mark_completed s id res ms ss).failed = s.failed ∧
    (mark_completed s id res ms ss).wait = s.wait :=
  ⟨rfl, rfl, rfl, rfl⟩

theorem mark_failed_proj (s : RedisState) (id err : String) (ms ss : Nat) :
    (mark_failed s id err ms ss).active = lrem1 s.active id ∧
    (mark_failed s id err ms ss).failed = zadd s.failed id ss ∧
    (mark_failed s id err ms ss).completed = s.completed ∧
    (mark_failed s id err ms ss).wait = s.wait :=
  ⟨rfl, rfl, rfl, rfl⟩

theorem not_settle_of_settleCount_zero (ps : List QCall) (hps : settleCount ps = 0) :
    ∀ c ∈ ps, QCall.isSettle c = false := by
  intro c hc
  have h := List.countP_eq_zero.mp hps c hc
  cases hq : QCall.isSettle c
  · rfl
  · exact absurd hq h

theorem settle_state_completed (ms ss : Nat) (s : RedisState) (ps : List QCall)
    (hps : settleCount ps = 0) (job_id url : String)
    (hact : s.active.count job_id = 1) (hfail : zMember s.failed job_id = false) :
    job_id ∉ ((ps ++ [QCall.completed job_id url]).foldl (applyCall ms ss) s).active ∧
    zMember ((ps ++ [QCall.completed job_id url]).foldl (applyCall ms ss) s).completed
      job_id = true ∧
    zMember ((ps ++ [QCall.completed job_id url]).foldl (applyCall ms ss) s).failed
      job_id = false := by
  rw [List.foldl_append]
  have hl := foldl_applyCall_lists ms ss ps (not_settle_of_settleCount_zero ps hps) s
  have hstep :
      (List.foldl (applyCall ms ss) (ps.foldl (applyCall ms ss) s) [QCall.completed job_id url]) =
        mark_completed (ps.foldl (applyCall ms ss) s) job_id url ms ss := rfl
  rw [hstep]
  refine ⟨?_, ?_, ?_⟩
  · rw [(mark_completed_proj _ _ _ _ _).1, hl.2.1]
    exact notMem_lrem1_of_count_eq_one s.active job_id hact
  · rw [(mark_completed_proj _ _ _ _ _).2.1]
    exact zMember_zadd_self _ job_id ss
  · rw [(mark_completed_proj _ _ _ _ _).2.2.1, hl.2.2.2]
    exact hfail

theorem settle_state_failed (ms ss : Nat) (s : RedisState) (ps : List QCall)
    (hps : settleCount ps = 0) (job_id msg : String)
    (hact : s.active.count job_id = 1) (hcomp : zMember s.completed job_id = false) :
    job_id ∉ ((ps ++ [QCall.failed job_id msg]).foldl (applyCall ms ss) s).active ∧
    zMember ((ps ++ [QCall.failed job_id msg]).foldl (applyCall ms ss) s).failed
      job_id = true ∧
    zMember ((ps ++ [QCall.failed job_id msg]).foldl (applyCall ms ss) s).completed
      job_id = false := by
  rw [List.foldl_append]
  have hl := foldl_applyCall_lists ms ss ps (not_settle_of_settleCount_zero ps hps) s
  have hstep :
      (List.foldl (applyCall ms ss) (ps.foldl (applyCall ms ss) s) [QCall.failed job_id msg]) =
        mark_failed (ps.foldl (applyCall ms ss) s) job_id msg ms ss := rfl
  rw [hstep]
  refine ⟨?_, ?_, ?_⟩
  · rw [(mark_failed_proj _ _ _ _ _).1, hl.2.1]
    exact notMem_lrem1_of_count_eq_one s.active job_id hact
  · rw [(mark_failed_proj _ _ _ _ _).2.1]
    exact zMember_zadd_self _ job_id ss
  · rw [(mark_failed_proj _ _ _ _ _).2.2.1, hl.2.2.1]
    exact hcomp

theorem get_next_job_matched (q job_id : String) (w : List String) (s : RedisState)
    (h : JobHash) (data : Dict)
    (hw : s.wait = w ++ [job_id])
    (hh : hashGet s.hashes job_id = some h)
    (hd : decodeData h.data = some data)
    (ht : dictGetD data "type" "" = q) :
    get_next_job q s =
      (some (mkJob job_id data), { s with wait := w, active := job_id :: s.active }) := by
  unfold get_next_job
  rw [hw, List.getLast?_concat]
  simp [hh, hd, ht, List.dropLast_concat]

theorem cleanup_covers (fs fsTry : FileSys) (files : List (Option String))
    (hcov : ∀ p, p ∈ fsTry → p ∈ fs ∨ some p ∈ files) :
    ∀ p, p ∈ cleanup fsTry files → p ∈ fs := by
  intro p hp
  rcases hcov p (cleanup_subset files fsTry p hp) with h | h
  · exact h
  · exact absurd hp (notMem_cleanup files p h fsTry)

theorem wl_branch (fs fsTry : FileSys) (lv la : String) (out : Option String)
    (tr : List QCall) (hsc : settleCount tr = 1)
    (hcov : ∀ p, p ∈ fsTry → p ∈ fs ∨ some p ∈ [some lv, some la, out]) :
    settleCount tr = 1 ∧
    lv ∉ cleanup fsTry [some lv, some la, out] ∧
    la ∉ cleanup fsTry [some lv, some la, out] ∧
    (∀ p, p ∈ cleanup fsTry [some lv, some la, out] → p ∈ fs) :=
  ⟨hsc, notMem_cleanup _ lv (by simp) fsTry, notMem_cleanup _ la (by simp) fsTry,
    cleanup_covers fs fsTry _ hcov⟩

theorem lx_branch (fs fsTry : FileSys) (li : String) (out : Option String)
    (tr : List QCall) (hsc : settleCount tr = 1)
    (hcov : ∀ p, p ∈ fsTry → p ∈ fs ∨ some p ∈ [some li, out]) :
    settleCount tr = 1 ∧
    li ∉ cleanup fsTry [some li, out] ∧
    (∀ p, p ∈ cleanup fsTry [some li, out] → p ∈ fs) :=
  ⟨hsc, notMem_cleanup _ li (by simp) fsTry, cleanup_covers fs fsTry _ hcov⟩

theorem wav2lipJob_props (job_id : String) (job : Dict) (r2 : Wav2lipRun)
    (fs : FileSys) :
    settleCount (wav2lipJob job_id job r2 fs).1 = 1 ∧
    ("/tmp/" ++ job_id ++ "_input.mp4") ∉ (wav2lipJob job_id job r2 fs).2 ∧
    ("/tmp/" ++ job_id ++ "_input.wav") ∉ (wav2lipJob job_id job r2 fs).2 ∧
    (∀ p, p ∈ (wav2lipJob job_id job r2 fs).2 → p ∈ fs) := by
  by_cases hv : dictGetD job "videoUrl" "" = ""
  · have hjob : wav2lipJob job_id job r2 fs =
        ([QCall.progress job_id 0, QCall.failed job_id "Missing videoUrl in job data"],
          cleanup fs [some ("/tmp/" ++ job_id ++ "_input.mp4"),
            some ("/tmp/" ++ job_id ++ "_input.wav"), none]) := by
      simp [wav2lipJob, hv]
    rw [hjob]
    exact wl_branch fs fs _ _ none _ rfl (fun p hp => Or.inl hp)
  · cases hdv : r2.dlVideo with
    | failClean m =>
      have hjob : wav2lipJob job_id job r2 fs =
          ([QCall.progress job_id 0, QCall.failed job_id m],
            cleanup fs [some ("/tmp/" ++ job_id ++ "_input.mp4"),
              some ("/tmp/" ++ job_id ++ "_input.wav"), none]) := by
        simp [wav2lipJob, hv, hdv]
      rw [hjob]
      exact wl_branch fs fs _ _ none _ rfl (fun p hp => Or.inl hp)
    | failCreated m =>
      have hjob : wav2lipJob job_id job r2 fs =
          ([QCall.progress job_id 0, QCall.failed job_id m],
            cleanup (fsAdd fs ("/tmp/" ++ job_id ++ "_input.mp4"))
              [some ("/tmp/" ++ job_id ++ "_input.mp4"),
               some ("/tmp/" ++ job_id ++ "_input.wav"), none]) := by
        simp [wav2lipJob, hv, hdv]
      rw [hjob]
      refine wl_branch fs _ _ _ none _ rfl ?_
      intro p hp
      rcases (mem_fsAdd fs _ p).mp hp with h | h
      · exact Or.inl h
      · exact Or.inr (by rw [h]; simp)
    | ok =>
      by_cases ha : dictGetD job "audioUrl" "" = ""
      · have hjob : wav2lipJob job_id job r2 fs =
            ([QCall.progress job_id 0, QCall.progress job_id 10,
              QCall.failed job_id "Missing audioUrl in job data"],
              cleanup (fsAdd fs ("/tmp/" ++ job_id ++ "_input.mp4"))
                [some ("/tmp/" ++ job_id ++ "_input.mp4"),
                 some ("/tmp/" ++ job_id ++ "_input.wav"), none]) := by
          simp [wav2lipJob, hv, hdv, ha]
        rw [hjob]
        refine wl_branch fs _ _ _ none _ rfl ?_
        intro p hp
        rcases (mem_fsAdd fs _ p).mp hp with h | h
        · exact Or.inl h
        · exact Or.inr (by rw [h]; simp)
      · cases hda : r2.dlAudio with
        | failClean m =>
          have hjob : wav2lipJob job_id job r2 fs =
              ([QCall.progress job_id 0, QCall.progress job_id 10,
                QCall.failed job_id m],
                cleanup (fsAdd fs ("/tmp/" ++ job_id ++ "_input.mp4"))
                  [some ("/tmp/" ++ job_id ++ "_input.mp4"),
                   some ("/tmp/" ++ job_id ++ "_input.wav"), none]) := by
            simp [wav2lipJob, hv, hdv, ha, hda]
          rw [hjob]
          refine wl_branch fs _ _ _ none _ rfl ?_
          intro p hp
          rcases (mem_fsAdd fs _ p).mp hp with h | h
          · exact Or.inl h
          · exact Or.inr (by rw [h]; simp)
        | failCreated m =>
          have hjob : wav2lipJob job_id job r2 fs =
              ([QCall.progress job_id 0, QCall.progress job_id 10,
                QCall.failed job_id m],
                cleanup (fsAdd (fsAdd fs ("/tmp/" ++ job_id ++ "_input.mp4"))
                    ("/tmp/" ++ job_id ++ "_input.wav"))
                  [some ("/tmp/" ++ job_id ++ "_input.mp4"),
                   some ("/tmp/" ++ job_id ++ "_input.wav"), none]) := by
            simp [wav2lipJob, hv, hdv, ha, hda]
          rw [hjob]
          refine wl_branch fs _ _ _ none _ rfl ?_
          intro p hp
          rcases (mem_fsAdd _ _ p).mp hp with h | h
          · rcases (mem_fsAdd fs _ p).mp h with h' | h'
            · exact Or.inl h'
            · exact Or.inr (by rw [h']; simp)
          · exact Or.inr (by rw [h]; simp)
        | ok =>
          cases hg : r2.gen with
          | error m =>
            have hjob : wav2lipJob job_id job r2 fs =
                ([QCall.progress job_id 0, QCall.progress job_id 10,
                  QCall.progress job_id 20] ++
                  r2.genProgress.map (fun p => QCall.progress job_id (wav2lipScale p)) ++
                  [QCall.failed job_id m],
                  cleanup (fsAdd (fsAdd fs ("/tmp/" ++ job_id ++ "_input.mp4"))
                      ("/tmp/" ++ job_id ++ "_input.wav"))
                    [some ("/tmp/" ++ job_id ++ "_input.mp4"),
                     some ("/tmp/" ++ job_id ++ "_input.wav"), none]) := by
              simp [wav2lipJob, hv, hdv, ha, hda, hg, List.append_assoc]
            rw [hjob]
            refine wl_branch fs _ _ _ none _ ?_ ?_
            · rw [settleCount_append, settleCount_append, settleCount_progressMap]
              rfl
            · intro p hp
              rcases (mem_fsAdd _ _ p).mp hp with h | h
              · rcases (mem_fsAdd fs _ p).mp h with h' | h'
                · exact Or.inl h'
                · exact Or.inr (by rw [h']; simp)
              · exact Or.inr (by rw [h]; simp)
          | ok out =>
            cases hu : r2.upload with
            | error m =>
              have hjob : wav2lipJob job_id job r2 fs =
                  ([QCall.progress job_id 0, QCall.progress job_id 10,
                    QCall.progress job_id 20] ++
                    r2.genProgress.map (fun p => QCall.progress job_id (wav2lipScale p)) ++
                    [QCall.progress job_id 90, QCall.failed job_id m],
                    cleanup (fsAdd (fsAdd (fsAdd fs ("/tmp/" ++ job_id ++ "_input.mp4"))
                        ("/tmp/" ++ job_id ++ "_input.wav")) out)
                      [some ("/tmp/" ++ job_id ++ "_input.mp4"),
                       some ("/tmp/" ++ job_id ++ "_input.wav"), some out]) := by
                simp [wav2lipJob, hv, hdv, ha, hda, hg, hu, List.append_assoc]
              rw [hjob]
              refine wl_branch fs _ _ _ (some out) _ ?_ ?_
              · rw [settleCount_append, settleCount_append, settleCount_progressMap]
                rfl
              · intro p hp
                rcases (mem_fsAdd _ _ p).mp hp with h | h
                · rcases (mem_fsAdd _ _ p).mp h with h' | h'
                  · rcases (mem_fsAdd fs _ p).mp h' with h'' | h''
                    · exact Or.inl h''
                    · exact Or.inr (by rw [h'']; simp)
                  · exact Or.inr (by rw [h']; simp)
                · exact Or.inr (by rw [h]; simp)
            | ok url =>
              cases hpost : r2.post with
              | error m =>
                have hjob : wav2lipJob job_id job r2 fs =
                    ([QCall.progress job_id 0, QCall.progress job_id 10,
                      QCall.progress job_id 20] ++
                      r2.genProgress.map (fun p => QCall.progress job_id (wav2lipScale p)) ++
                      [QCall.progress job_id 90, QCall.failed job_id m],
                      cleanup (fsAdd (fsAdd (fsAdd fs ("/tmp/" ++ job_id ++ "_input.mp4"))
                          ("/tmp/" ++ job_id ++ "_input.wav")) out)
                        [some ("/tmp/" ++ job_id ++ "_input.mp4"),
                         some ("/tmp/" ++ job_id ++ "_input.wav"), some out]) := by
                  simp [wav2lipJob, hv, hdv, ha, hda, hg, hu, hpost, List.append_assoc]
                rw [hjob]
                refine wl_branch fs _ _ _ (some out) _ ?_ ?_
                · rw [settleCount_append, settleCount_append, settleCount_progressMap]
                  rfl
                · intro p hp
                  rcases (mem_fsAdd _ _ p).mp hp with h | h
                  · rcases (mem_fsAdd _ _ p).mp h with h' | h'
                    · rcases (mem_fsAdd fs _ p).mp h' with h'' | h''
                      · exact Or.inl h''
                      · exact Or.inr (by rw [h'']; simp)
                    · exact Or.inr (by rw [h']; simp)
                  · exact Or.inr (by rw [h]; simp)
              | ok u =>
                cases u
                have hjob : wav2lipJob job_id job r2 fs =
                    ([QCall.progress job_id 0, QCall.progress job_id 10,
                      QCall.progress job_id 20] ++
                      r2.genProgress.map (fun p => QCall.progress job_id (wav2lipScale p)) ++
                      [QCall.progress job_id 90, QCall.progress job_id 100,
                       QCall.completed job_id url],
                      cleanup (fsAdd (fsAdd (fsAdd fs ("/tmp/" ++ job_id ++ "_input.mp4"))
                          ("/tmp/" ++ job_id ++ "_input.wav")) out)
                        [some ("/tmp/" ++ job_id ++ "_input.mp4"),
                         some ("/tmp/" ++ job_id ++ "_input.wav"), some out]) := by
                  simp [wav2lipJob, hv, hdv, ha, hda, hg, hu, hpost, List.append_assoc]
                rw [hjob]
                refine wl_branch fs _ _ _ (some out) _ ?_ ?_
                · rw [settleCount_append, settleCount_append, settleCount_progressMap]
                  rfl
                · intro p hp
                  rcases (mem_fsAdd _ _ p).mp hp with h | h
                  · rcases (mem_fsAdd _ _ p).mp h with h' | h'
                    · rcases (mem_fsAdd fs _ p).mp h' with h'' | h''
                      · exact Or.inl h''
                      · exact Or.inr (by rw [h'']; simp)
                    · exact Or.inr (by rw [h']; simp)
                  · exact Or.inr (by rw [h]; simp)

theorem ltx2Job_props (job_id : String) (job : Dict) (rl : Ltx2Run)
    (fs : FileSys) :
    settleCount (ltx2Job job_id job rl fs).1 = 1 ∧
    ("/tmp/" ++ job_id ++ "_input.jpg") ∉ (ltx2Job job_id job rl fs).2 ∧
    (∀ p, p ∈ (ltx2Job job_id job rl fs).2 → p ∈ fs) := by
  by_cases hi : dictGetD job "imageUrl" "" = ""
  · have hjob : ltx2Job job_id job rl fs =
        ([QCall.progress job_id 0, QCall.failed job_id "Missing imageUrl in job data"],
          cleanup fs [some ("/tmp/" ++ job_id ++ "_input.jpg"), none]) := by
      simp [ltx2Job, hi]
    rw [hjob]
    exact lx_branch fs fs _ none _ rfl (fun p hp => Or.inl hp)
  · cases hdi : rl.dlImage with
    | failClean m =>
      have hjob : ltx2Job job_id job rl fs =
          ([QCall.progress job_id 0, QCall.failed job_id m],
            cleanup fs [some ("/tmp/" ++ job_id ++ "_input.jpg"), none]) := by
        simp [ltx2Job, hi, hdi]
      rw [hjob]
      exact lx_branch fs fs _ none _ rfl (fun p hp => Or.inl hp)
    | failCreated m =>
      have hjob : ltx2Job job_id job rl fs =
          ([QCall.progress job_id 0, QCall.failed job_id m],
            cleanup (fsAdd fs ("/tmp/" ++ job_id ++ "_input.jpg"))
              [some ("/tmp/" ++ job_id ++ "_input.jpg"), none]) := by
        simp [ltx2Job, hi, hdi]
      rw [hjob]
      refine lx_branch fs _ _ none _ rfl ?_
      intro p hp
      rcases (mem_fsAdd fs _ p).mp hp with h | h
      · exact Or.inl h
      · exact Or.inr (by rw [h]; simp)
    | ok =>
      cases hg : rl.gen with
      | error m =>
        have hjob : ltx2Job job_id job rl fs =
            ([QCall.progress job_id 0, QCall.progress job_id 10] ++
              rl.genProgress.map (fun p => QCall.progress job_id (ltx2Scale p)) ++
              [QCall.failed job_id m],
              cleanup (fsAdd fs ("/tmp/" ++ job_id ++ "_input.jpg"))
                [some ("/tmp/" ++ job_id ++ "_input.jpg"), none]) := by
          simp [ltx2Job, hi, hdi, hg, List.append_assoc]
        rw [hjob]
        refine lx_branch fs _ _ none _ ?_ ?_
        · rw [settleCount_append, settleCount_append, settleCount_progressMap]
          rfl
        · intro p hp
          rcases (mem_fsAdd fs _ p).mp hp with h | h
          · exact Or.inl h
          · exact Or.inr (by rw [h]; simp)
      | ok out =>
        cases hu : rl.upload with
        | error m =>
          have hjob : ltx2Job job_id job rl fs =
              ([QCall.progress job_id 0, QCall.progress job_id 10] ++
                rl.genProgress.map (fun p => QCall.progress job_id (ltx2Scale p)) ++
                [QCall.progress job_id 90, QCall.failed job_id m],
                cleanup (fsAdd (fsAdd fs ("/tmp/" ++ job_id ++ "_input.jpg")) out)
                  [some ("/tmp/" ++ job_id ++ "_input.jpg"), some out]) := by
            simp [ltx2Job, hi, hdi, hg, hu, List.append_assoc]
          rw [hjob]
          refine lx_branch fs _ _ (some out) _ ?_ ?_
          · rw [settleCount_append, settleCount_append, settleCount_progressMap]
            rfl
          · intro p hp
            rcases (mem_fsAdd _ _ p).mp hp with h | h
            · rcases (mem_fsAdd fs _ p).mp h with h' | h'
              · exact Or.inl h'
              · exact Or.inr (by rw [h']; simp)
            · exact Or.inr (by rw [h]; simp)
        | ok url =>
          cases hpost : rl.post with
          | error m =>
            have hjob : ltx2Job job_id job rl fs =
                ([QCall.progress job_id 0, QCall.progress job_id 10] ++
                  rl.genProgress.map (fun p => QCall.progress job_id (ltx2Scale p)) ++
                  [QCall.progress job_id 90, QCall.failed job_id m],
                  cleanup (fsAdd (fsAdd fs ("/tmp/" ++ job_id ++ "_input.jpg")) out)
                    [some ("/tmp/" ++ job_id ++ "_input.jpg"), some out]) := by
              simp [ltx2Job, hi, hdi, hg, hu, hpost, List.append_assoc]
            rw [hjob]
            refine lx_branch fs _ _ (some out) _ ?_ ?_
            · rw [settleCount_append, settleCount_append, settleCount_progressMap]
              rfl
            · intro p hp
              rcases (mem_fsAdd _ _ p).mp hp with h | h
              · rcases (mem_fsAdd fs _ p).mp h with h' | h'
                · exact Or.inl h'
                · exact Or.inr (by rw [h']; simp)
              · exact Or.inr (by rw [h]; simp)
          | ok u =>
            cases u
            have hjob : ltx2Job job_id job rl fs =
                ([QCall.progress job_id 0, QCall.progress job_id 10] ++
                  rl.genProgress.map (fun p => QCall.progress job_id (ltx2Scale p)) ++
                  [QCall.progress job_id 90, QCall.progress job_id 100,
                   QCall.completed job_id url],
                  cleanup (fsAdd (fsAdd fs ("/tmp/" ++ job_id ++ "_input.jpg")) out)
                    [some ("/tmp/" ++ job_id ++ "_input.jpg"), some out]) := by
              simp [ltx2Job, hi, hdi, hg, hu, hpost, List.append_assoc]
            rw [hjob]
            refine lx_branch fs _ _ (some out) _ ?_ ?_
            · rw [settleCount_append, settleCount_append, settleCount_progressMap]
              rfl
            · intro p hp
              rcases (mem_fsAdd _ _ p).mp hp with h | h
              · rcases (mem_fsAdd fs _ p).mp h with h' | h'
                · exact Or.inl h'
                · exact Or.inr (by rw [h']; simp)
              · exact Or.inr (by rw [h]; simp)

theorem one_settlement_of_shape (ms ss : Nat) (s : RedisState) (job_id : String)
    (hact : s.active.count job_id = 1)
    (hcomp : zMember s.completed job_id = false)
    (hfail : zMember s.failed job_id = false)
    (tr ps : List QCall) (hps : settleCount ps = 0)
    (hshape : (∃ url, tr = ps ++ [QCall.completed job_id url]) ∨
              (∃ msg, tr = ps ++ [QCall.failed job_id msg])) :
    settleCount tr = 1 ∧
    job_id ∉ (tr.foldl (applyCall ms ss) s).active ∧
    zMember (tr.foldl (applyCall ms ss) s).completed job_id ≠
      zMember (tr.foldl (applyCall ms ss) s).failed job_id := by
  rcases hshape with ⟨url, rfl⟩ | ⟨msg, rfl⟩
  · have hstate := settle_state_completed ms ss s ps hps job_id url hact hfail
    refine ⟨?_, hstate.1, ?_⟩
    · rw [settleCount_append, hps]
      rfl
    · rw [hstate.2.1, hstate.2.2]
      simp
  · have hstate := settle_state_failed ms ss s ps hps job_id msg hact hcomp
    refine ⟨?_, hstate.1, ?_⟩
    · rw [settleCount_append, hps]
      rfl
    · rw [hstate.2.2, hstate.2.1]
      simp

/-- C1: one zimage worker-loop iteration over a claimed job issues exactly one
settlement call — `mark_completed` when the executor, the result sink and the
metadata reads all succeed, `mark_failed` when any of them raises (the
`except` handler), never both and never neither — and after interpreting the
iteration's calls the job id is out of `active` and a member of exactly one
of the completed/failed sorted sets. -/
theorem C1_exactly_one_settlement
    (job_id : String) (job : Dict) (r : ZimageRun) (s : RedisState) (ms ss : Nat)
    (hact : s.active.count job_id = 1)
    (hcomp : zMember s.completed job_id = false)
    (hfail : zMember s.failed job_id = false) :
    settleCount (zimageJobTrace job_id job r) = 1 ∧
    job_id ∉ ((zimageJobTrace job_id job r).foldl (applyCall ms ss) s).active ∧
    zMember ((zimageJobTrace job_id job r).foldl (applyCall ms ss) s).completed
        job_id ≠
      zMember ((zimageJobTrace job_id job r).foldl (applyCall ms ss) s).failed
        job_id ∧
    ((dictGetD job "prompt" "" ≠ "" ∧ (∃ a, r.gen = Except.ok a) ∧
        (∃ u, r.upload = Except.ok u) ∧ r.post = Except.ok ()) →
      ∃ ps url, zimageJobTrace job_id job r = ps ++ [QCall.completed job_id url]) ∧
    (¬ (dictGetD job "prompt" "" ≠ "" ∧ (∃ a, r.gen = Except.ok a) ∧
        (∃ u, r.upload = Except.ok u) ∧ r.post = Except.ok ()) →
      ∃ ps msg, zimageJobTrace job_id job r = ps ++ [QCall.failed job_id msg]) := by
  by_cases hp : dictGetD job "prompt" "" = ""
  · have htr : zimageJobTrace job_id job r =
        [QCall.progress job_id 0] ++ [QCall.failed job_id "Missing prompt in job data"] := by
      simp [zimageJobTrace, hp]
    have base := one_settlement_of_shape ms ss s job_id hact hcomp hfail _ _
      (rfl : settleCount [QCall.progress job_id 0] = 0) (Or.inr ⟨_, htr⟩)
    refine ⟨base.1, base.2.1, base.2.2, fun hsucc => absurd hp hsucc.1, fun _ => ⟨_, _, htr⟩⟩
  · cases hg : r.gen with
    | error msg =>
      have htr : zimageJobTrace job_id job r =
          ([QCall.progress job_id 0, QCall.progress job_id 5] ++
            r.genProgress.map (fun p => QCall.progress job_id (zimageScale p))) ++
          [QCall.failed job_id msg] := by
        simp [zimageJobTrace, hp, hg, List.append_assoc]
      have hps : settleCount ([QCall.progress job_id 0, QCall.progress job_id 5] ++
          r.genProgress.map (fun p => QCall.progress job_id (zimageScale p))) = 0 := by
        rw [settleCount_append, settleCount_progressMap]
        rfl
      have base := one_settlement_of_shape ms ss s job_id hact hcomp hfail _ _
        hps (Or.inr ⟨_, htr⟩)
      refine ⟨base.1, base.2.1, base.2.2, ?_, fun _ => ⟨_, _, htr⟩⟩
      intro hsucc
      rcases hsucc.2.1 with ⟨a, ha⟩
      simp at ha
    | ok path =>
      cases hu : r.upload with
      | error msg =>
        have htr : zimageJobTrace job_id job r =
            (([QCall.progress job_id 0, QCall.progress job_id 5] ++
              r.genProgress.map (fun p => QCall.progress job_id (zimageScale p))) ++
              [QCall.progress job_id 90]) ++
            [QCall.failed job_id msg] := by
          simp [zimageJobTrace, hp, hg, hu, List.append_assoc]
        have hps : settleCount (([QCall.progress job_id 0, QCall.progress job_id 5] ++
            r.genProgress.map (fun p => QCall.progress job_id (zimageScale p))) ++
            [QCall.progress job_id 90]) = 0 := by
          rw [settleCount_append, settleCount_append, settleCount_progressMap]
          rfl
        have base := one_settlement_of_shape ms ss s job_id hact hcomp hfail _ _
          hps (Or.inr ⟨_, htr⟩)
        refine ⟨base.1, base.2.1, base.2.2, ?_, fun _ => ⟨_, _, htr⟩⟩
        intro hsucc
        rcases hsucc.2.2.1 with ⟨u, hu'⟩
        simp at hu'
      | ok url =>
        cases hpost : r.post with
        | error msg =>
          have htr : zimageJobTrace job_id job r =
              (([QCall.progress job_id 0, QCall.progress job_id 5] ++
                r.genProgress.map (fun p => QCall.progress job_id (zimageScale p))) ++
                [QCall.progress job_id 90]) ++
              [QCall.failed job_id msg] := by
            simp [zimageJobTrace, hp, hg, hu, hpost, List.append_assoc]
          have hps : settleCount (([QCall.progress job_id 0, QCall.progress job_id 5] ++
              r.genProgress.map (fun p => QCall.progress job_id (zimageScale p))) ++
              [QCall.progress job_id 90]) = 0 := by
            rw [settleCount_append, settleCount_append, settleCount_progressMap]
            rfl
          have base := one_settlement_of_shape ms ss s job_id hact hcomp hfail _ _
            hps (Or.inr ⟨_, htr⟩)
          refine ⟨base.1, base.2.1, base.2.2, ?_, fun _ => ⟨_, _, htr⟩⟩
          intro hsucc
          have hpost' := hsucc.2.2.2
          simp at hpost'
        | ok u =>
          cases u
          have htr : zimageJobTrace job_id job r =
              (([QCall.progress job_id 0, QCall.progress job_id 5] ++
                r.genProgress.map (fun p => QCall.progress job_id (zimageScale p))) ++
                [QCall.progress job_id 90, QCall.progress job_id 100]) ++
              [QCall.completed job_id url] := by
            simp [zimageJobTrace, hp, hg, hu, hpost, List.append_assoc]
          have hps : settleCount (([QCall.progress job_id 0, QCall.progress job_id 5] ++
              r.genProgress.map (fun p => QCall.progress job_id (zimageScale p))) ++
              [QCall.progress job_id 90, QCall.progress job_id 100]) = 0 := by
            rw [settleCount_append, settleCount_append, settleCount_progressMap]
            rfl
          have base := one_settlement_of_shape ms ss s job_id hact hcomp hfail _ _
            hps (Or.inl ⟨_, htr⟩)
          refine ⟨base.1, base.2.1, base.2.2, fun _ => ⟨_, _, htr⟩, ?_⟩
          intro hns
          exact absurd ⟨hp, ⟨path, rfl⟩, ⟨url, rfl⟩, rfl⟩ hns

/-- Witness for C1 on a concrete store and a fully successful run. -/
theorem C1_exactly_one_settlement_witness :
    settleCount (zimageJobTrace "j1" [("prompt", "cat")] runZOk) = 1 ∧
    "j1" ∉ ((zimageJobTrace "j1" [("prompt", "cat")] runZOk).foldl
        (applyCall 1000 1) stateActive).active ∧
    zMember ((zimageJobTrace "j1" [("prompt", "cat")] runZOk).foldl
        (applyCall 1000 1) stateActive).completed "j1" ≠
      zMember ((zimageJobTrace "j1" [("prompt", "cat")] runZOk).foldl
        (applyCall 1000 1) stateActive).failed "j1" ∧
    (((dictGetD [("prompt", "cat")] "prompt" "" ≠ "" ∧
        (∃ a, runZOk.gen = Except.ok a) ∧ (∃ u, runZOk.upload = Except.ok u) ∧
        runZOk.post = Except.ok ()) →
      ∃ ps url, zimageJobTrace "j1" [("prompt", "cat")] runZOk =
        ps ++ [QCall.completed "j1" url])) ∧
    (¬ (dictGetD [("prompt", "cat")] "prompt" "" ≠ "" ∧
        (∃ a, runZOk.gen = Except.ok a) ∧ (∃ u, runZOk.upload = Except.ok u) ∧
        runZOk.post = Except.ok ()) →
      ∃ ps msg, zimageJobTrace "j1" [("prompt", "cat")] runZOk =
        ps ++ [QCall.failed "j1" msg]) :=
  C1_exactly_one_settlement "j1" [("prompt", "cat")] runZOk stateActive 1000 1
    (by decide) (by decide) (by decide)

/-- C2: for every claimed job whose `type` tag does not equal the queue name
the client was constructed with, `get_next_job` removes the identifier from
`active`, re-inserts it at the head of `wait`, and returns none; and the
worker-loop iteration built on that claim issues no queue-client calls at
all, so neither `mark_completed` nor `mark_failed` is invoked for that job by
this worker. -/
theorem C2_type_mismatch_requeued_never_settled
    (q job_id : String) (w : List String) (s : RedisState)
    (h : JobHash) (data : Dict) (r : ZimageRun)
    (hw : s.wait = w ++ [job_id])
    (hh : hashGet s.hashes job_id = some h)
    (hd : decodeData h.data = some data)
    (ht : dictGetD data "type" "" ≠ q) :
    get_next_job q s = (none, { s with wait := job_id :: w }) ∧
    (workerIteration q s r).1 = [] := by
  have hstep : get_next_job q s = (none, { s with wait := job_id :: w }) := by
    unfold get_next_job
    rw [hw, List.getLast?_concat]
    simp [hh, hd, ht, List.dropLast_concat, lrem1_cons_self]
  refine ⟨hstep, ?_⟩
  unfold workerIteration
  rw [hstep]

/-- Witness for C2 on a concrete store: an ltx2-typed job observed by the
zimage worker is pushed back to the head of `wait` and the iteration issues
no calls. -/
theorem C2_type_mismatch_requeued_never_settled_witness :
    get_next_job "generate:zimage" (stateW "generate:ltx2") =
      (none, { stateW "generate:ltx2" with wait := ["j1", "x"] }) ∧
    (workerIteration "generate:zimage" (stateW "generate:ltx2") runZOk).1 = [] :=
  C2_type_mismatch_requeued_never_settled "generate:zimage" "j1" ["x"]
    (stateW "generate:ltx2") (jobHashW "generate:ltx2")
    [("type", "generate:ltx2"), ("prompt", "cat")] runZOk
    rfl (by decide) rfl (by decide)

/-- C3 counterexample: on a concrete store the claim succeeds
(`get_next_job` returns a job) yet the job hash's `processedOn` field is
still unset afterwards — the claim path writes no timestamp. -/
theorem C3_claim_sets_processedOn_cex :
    ((get_next_job "generate:zimage" (stateW "generate:zimage")).1.isSome = true) ∧
    ((get_next_job "generate:zimage" (stateW "generate:zimage")).2.hashes.map
        (fun p => (p.1, p.2.processedOn)) = [("j1", none)]) := by
  decide

/-- C3 (amended): `finishedOn` is a millisecond-epoch timestamp set at
settlement; `processedOn` is not set on claim — `get_next_job` writes no hash
field at all — but at settlement `mark_completed` sets both `processedOn` and
`finishedOn` to the settlement time, while `mark_failed` sets only
`finishedOn` (leaving `processedOn` as it was). -/
theorem C3_timestamps_set_at_settlement (q : String) (s : RedisState)
    (id res err : String) (ms ss : Nat) :
    ((get_next_job q s).2.hashes = s.hashes) ∧
    (hashGet (mark_completed s id res ms ss).hashes id =
      some { (hashGet s.hashes id).getD {} with
              returnvalue := some res,
              processedOn := some (toString ms),
              finishedOn := some (toString ms) }) ∧
    (hashGet (mark_failed s id err ms ss).hashes id =
      some { (hashGet s.hashes id).getD {} with
              failedReason := some err,
              finishedOn := some (toString ms) }) := by
  refine ⟨?_, ?_, ?_⟩
  · unfold get_next_job
    cases hlast : s.wait.getLast? with
    | none => rfl
    | some job_id =>
      cases hh : hashGet s.hashes job_id with
      | none => simp [hh]
      | some h =>
        cases hd : decodeData h.data with
        | none => simp [hh, hd]
        | some data =>
          by_cases ht : dictGetD data "type" "" = q <;> simp [hh, hd, ht]
  · exact hashGet_hashUpd_self s.hashes id (fun h =>
      { h with returnvalue := some res, finishedOn := some (toString ms),
               processedOn := some (toString ms) })
  · exact hashGet_hashUpd_self s.hashes id (fun h =>
      { h with failedReason := some err, finishedOn := some (toString ms) })

/-- C4: the ltx2 worker's `main` evaluates `settings.LTX2_MODEL_PATH`, an
attribute the `Settings` class never defines, so startup raises
`AttributeError` before any component — in particular the queue client — is
constructed, and the polling loop is never reached for any sequence of poll
outcomes. -/
theorem C4_ltx2_startup_attribute_error :
    ltx2StartupEvents = ([], some "AttributeError: LTX2_MODEL_PATH") ∧
    (∀ (maxIdle : Nat) (polls : List Bool),
      ltx2Main maxIdle polls = Except.error "AttributeError: LTX2_MODEL_PATH") := by
  have h : ltx2StartupEvents = ([], some "AttributeError: LTX2_MODEL_PATH") := by
    decide
  refine ⟨h, fun maxIdle polls => ?_⟩
  unfold ltx2Main
  rw [h]

/-- C5: a claimed job whose `data` field fails to decode makes `get_next_job`
return none (the decode exception is caught, so the worker does not crash —
the function returns normally), and the identifier stays parked in `active`:
it is neither removed from `active` nor re-inserted into `wait`. -/
theorem C5_malformed_data_parked_in_active
    (q job_id : String) (w : List String) (s : RedisState) (h : JobHash)
    (hw : s.wait = w ++ [job_id])
    (hh : hashGet s.hashes job_id = some h)
    (hd : h.data = DataField.invalid) :
    get_next_job q s = (none, { s with wait := w, active := job_id :: s.active }) := by
  unfold get_next_job
  rw [hw, List.getLast?_concat]
  simp [hh, hd, decodeData, List.dropLast_concat]

/-- Witness for C5 on a concrete store: the malformed `j1` is popped from
`wait` and left in `active`. -/
theorem C5_malformed_data_parked_in_active_witness :
    get_next_job "generate:zimage" stateBad =
      (none, { stateBad with wait := ["x"], active := ["j1", "a0"] }) :=
  C5_malformed_data_parked_in_active "generate:zimage" "j1" ["x"] stateBad
    { data := DataField.invalid } rfl (by decide) rfl

/-- C6: with `MAX_IDLE_SECONDS = 10` and the 5-second poll timeout, a worker
loop seeing only empty polls shuts down after exactly 2 polls; in general a
miss grows the idle accumulator by the poll timeout and the loop exits as
soon as the accumulator reaches the maximum, while a claimed job resets the
accumulator to zero. -/
theorem C6_idle_shutdown :
    (∀ n : Nat, 2 ≤ n → pollLoop 10 5 0 (List.replicate n false) = some 2) ∧
    (∀ (maxIdle idle : Nat) (rest : List Bool),
      pollLoop maxIdle 5 idle (false :: rest) =
        if maxIdle ≤ idle + 5 then some 1
        else (pollLoop maxIdle 5 (idle + 5) rest).map (· + 1)) ∧
    (∀ (maxIdle idle : Nat) (rest : List Bool),
      pollLoop maxIdle 5 idle (true :: rest) =
        (pollLoop maxIdle 5 0 rest).map (· + 1)) := by
  refine ⟨?_, fun maxIdle idle rest => rfl, fun maxIdle idle rest => rfl⟩
  intro n hn
  obtain ⟨k, rfl⟩ : ∃ k, n = 2 + k := ⟨n - 2, by omega⟩
  rw [List.replicate_add]
  rfl

/-- Witness for C6: two consecutive empty polls shut the worker down. -/
theorem C6_idle_shutdown_witness :
    pollLoop 10 5 0 (List.replicate 2 false) = some 2 :=
  C6_idle_shutdown.1 2 (by decide)

set_option maxRecDepth 1000000 in
/-- C7: each worker's rescaling function (the wav2lip one computed with exact
binary64 semantics, where `int(90 * 0.7)` is 62) maps executor progress in
[0,100] back into [0,100] and is monotone non-decreasing on that domain; all
progress values a zimage iteration reports stay in [0,100] whenever the
executor's callback values do; and on the success path the final progress
update is 100 with nothing after it except the single `mark_completed`, so no
later update regresses below 100 for a completed job. -/
theorem C7_progress_range_monotone
    (job_id : String) (job : Dict) (r : ZimageRun) :
    (∀ p : Nat, p ≤ 100 →
      zimageScale p ≤ 100 ∧ wav2lipScale p ≤ 100 ∧ ltx2Scale p ≤ 100) ∧
    (∀ q : Nat, q ≤ 100 → ∀ p : Nat, p ≤ q →
      zimageScale p ≤ zimageScale q ∧ wav2lipScale p ≤ wav2lipScale q ∧
        ltx2Scale p ≤ ltx2Scale q) ∧
    ((∀ p ∈ r.genProgress, p ≤ 100) →
      ∀ v ∈ progressValues (zimageJobTrace job_id job r), v ≤ 100) ∧
    ((dictGetD job "prompt" "" ≠ "" ∧ (∃ a, r.gen = Except.ok a) ∧
        (∃ u, r.upload = Except.ok u) ∧ r.post = Except.ok ()) →
      ∃ ps url, zimageJobTrace job_id job r =
        ps ++ [QCall.progress job_id 100, QCall.completed job_id url]) := by
  have hbz : ∀ p : Nat, p ≤ 100 → zimageScale p ≤ 100 := by
    intro p hp; unfold zimageScale; omega
  have hbw : ∀ p : Nat, p ≤ 100 → wav2lipScale p ≤ 100 := by decide
  have hbl : ∀ p : Nat, p ≤ 100 → ltx2Scale p ≤ 100 := by
    intro p hp; unfold ltx2Scale; omega
  have hmw : ∀ q : Nat, q ≤ 100 → ∀ p : Nat, p ≤ q →
      wav2lipScale p ≤ wav2lipScale q := by decide
  refine ⟨fun p hp => ⟨hbz p hp, hbw p hp, hbl p hp⟩, ?_, ?_, ?_⟩
  · intro q hq p hpq
    refine ⟨?_, hmw q hq p hpq, ?_⟩
    · unfold zimageScale
      have hm := Nat.div_le_div_right (c := 100) (Nat.mul_le_mul_right 85 hpq)
      omega
    · unfold ltx2Scale
      have hm := Nat.div_le_div_right (c := 100) (Nat.mul_le_mul_right 80 hpq)
      omega
  · intro hgp v hv
    by_cases hp : dictGetD job "prompt" "" = ""
    · rw [show zimageJobTrace job_id job r =
          [QCall.progress job_id 0, QCall.failed job_id "Missing prompt in job data"]
          from by simp [zimageJobTrace, hp]] at hv
      simp [progressValues, List.filterMap_cons] at hv
      omega
    · cases hg : r.gen with
      | error msg =>
        rw [show zimageJobTrace job_id job r =
            [QCall.progress job_id 0, QCall.progress job_id 5] ++
              r.genProgress.map (fun p => QCall.progress job_id (zimageScale p)) ++
              [QCall.failed job_id msg]
            from by simp [zimageJobTrace, hp, hg, List.append_assoc]] at hv
        simp [progressValues_append, progressValues_progressMap,
          progressValues, List.filterMap_cons] at hv
        rcases hv with hv | hv | ⟨p, hpmem, rfl⟩
        · omega
        · omega
        · exact hbz p (hgp p hpmem)
      | ok path =>
        cases hu : r.upload with
        | error msg =>
          rw [show zimageJobTrace job_id job r =
              [QCall.progress job_id 0, QCall.progress job_id 5] ++
                r.genProgress.map (fun p => QCall.progress job_id (zimageScale p)) ++
                [QCall.progress job_id 90] ++ [QCall.failed job_id msg]
              from by simp [zimageJobTrace, hp, hg, hu, List.append_assoc]] at hv
          simp [progressValues_append, progressValues_progressMap,
            progressValues, List.filterMap_cons] at hv
          rcases hv with hv | hv | ⟨p, hpmem, rfl⟩ | hv
          · omega
          · omega
          · exact hbz p (hgp p hpmem)
          · omega
        | ok url =>
          cases hpost : r.post with
          | error msg =>
            rw [show zimageJobTrace job_id job r =
                [QCall.progress job_id 0, QCall.progress job_id 5] ++
                  r.genProgress.map (fun p => QCall.progress job_id (zimageScale p)) ++
                  [QCall.progress job_id 90] ++ [QCall.failed job_id msg]
                from by simp [zimageJobTrace, hp, hg, hu, hpost, List.append_assoc]] at hv
            simp [progressValues_append, progressValues_progressMap,
              progressValues, List.filterMap_cons] at hv
            rcases hv with hv | hv | ⟨p, hpmem, rfl⟩ | hv
            · omega
            · omega
            · exact hbz p (hgp p hpmem)
            · omega
          | ok u =>
            cases u
            rw [show zimageJobTrace job_id job r =
                [QCall.progress job_id 0, QCall.progress job_id 5] ++
                  r.genProgress.map (fun p => QCall.progress job_id (zimageScale p)) ++
                  [QCall.progress job_id 90] ++
                  [QCall.progress job_id 100, QCall.completed job_id url]
                from by simp [zimageJobTrace, hp, hg, hu, hpost, List.append_assoc]] at hv
            simp [progressValues_append, progressValues_progressMap,
              progressValues, List.filterMap_cons] at hv
            rcases hv with hv | hv | ⟨p, hpmem, rfl⟩ | hv | hv
            · omega
            · omega
            · exact hbz p (hgp p hpmem)
            · omega
            · omega
  · rintro ⟨hp, ⟨a, hg⟩, ⟨u, hu⟩, hpost⟩
    refine ⟨[QCall.progress job_id 0, QCall.progress job_id 5] ++
      r.genProgress.map (fun p => QCall.progress job_id (zimageScale p)) ++
      [QCall.progress job_id 90], u, ?_⟩
    simp [zimageJobTrace, hp, hg, hu, hpost, List.append_assoc]

/-- Witness for C7: the rescaling functions stay within range at the
endpoint 100. -/
theorem C7_progress_range_monotone_witness :
    zimageScale 100 ≤ 100 ∧ wav2lipScale 100 ≤ 100 ∧ ltx2Scale 100 ≤ 100 :=
  (C7_progress_range_monotone "j1" [("prompt", "cat")] runZOk).1 100 (by decide)

/-- C8: `update_progress` mutates only the `progress` field of the job's own
hash — wait/active/completed/failed and every other job's hash are untouched,
and the job's other hash fields are unchanged — and on a store error it
performs no mutation at all and still returns normally (the function is total
and yields a state, never an exception). -/
theorem C8_update_progress_isolated (s : RedisState) (id : String) (p : Nat) :
    (update_progress s id p true = s) ∧
    (∀ e : Bool, (update_progress s id p e).wait = s.wait ∧
      (update_progress s id p e).active = s.active ∧
      (update_progress s id p e).completed = s.completed ∧
      (update_progress s id p e).failed = s.failed) ∧
    (hashGet (update_progress s id p false).hashes id =
      some { (hashGet s.hashes id).getD {} with progress := some (toString p) }) ∧
    (∀ id', id' ≠ id →
      hashGet (update_progress s id p false).hashes id' = hashGet s.hashes id') := by
  refine ⟨rfl, update_progress_lists s id p, ?_, ?_⟩
  · exact hashGet_hashUpd_self s.hashes id (fun h =>
      { h with progress := some (toString p) })
  · intro id' hne
    exact hashGet_hashUpd_ne s.hashes id id' _ hne

/-- Witness for C8 on a concrete store: a progress write for `j1` leaves the
hash of a different id unchanged. -/
theorem C8_update_progress_isolated_witness :
    hashGet (update_progress stateActive "j1" 50 false).hashes "x" =
      hashGet stateActive.hashes "x" :=
  (C8_update_progress_isolated stateActive "j1" 50).2.2.2 "x" (by decide)

/-- C9: every job the wav2lip or ltx2 worker processes reaches exactly one
settlement, and the unconditional `finally` cleanup removes the job's local
scratch files on both the success and the failure path: the downloaded input
files are absent afterwards, and every file existing after the job already
existed before it — nothing the job created (inputs or the rendered output)
survives settlement. -/
theorem C9_settled_job_scratch_cleanup (job_id : String) (job : Dict)
    (r2 : Wav2lipRun) (rl : Ltx2Run) (fs : FileSys) :
    (settleCount (wav2lipJob job_id job r2 fs).1 = 1 ∧
      ("/tmp/" ++ job_id ++ "_input.mp4") ∉ (wav2lipJob job_id job r2 fs).2 ∧
      ("/tmp/" ++ job_id ++ "_input.wav") ∉ (wav2lipJob job_id job r2 fs).2 ∧
      (∀ p, p ∈ (wav2lipJob job_id job r2 fs).2 → p ∈ fs)) ∧
    (settleCount (ltx2Job job_id job rl fs).1 = 1 ∧
      ("/tmp/" ++ job_id ++ "_input.jpg") ∉ (ltx2Job job_id job rl fs).2 ∧
      (∀ p, p ∈ (ltx2Job job_id job rl fs).2 → p ∈ fs)) :=
  ⟨wav2lipJob_props job_id job r2 fs, ltx2Job_props job_id job rl fs⟩

/-- Witness for C9: on a successful concrete wav2lip run starting from a
filesystem holding only `keep.txt`, any file surviving the cleanup already
pre-existed. -/
theorem C9_settled_job_scratch_cleanup_witness :
    "keep.txt" ∈ ["keep.txt"] :=
  (C9_settled_job_scratch_cleanup "j1"
      [("videoUrl", "v"), ("audioUrl", "a"), ("imageUrl", "i")]
      runWlOk runLxOk ["keep.txt"]).1.2.2.2 "keep.txt" (by decide)

/-- C10: `get_next_job` builds its result as the dict `{"id": job_id, **data}`,
so when the decoded payload itself binds the key `id`, that binding wins over
the queue identifier popped from `wait`; the returned `id` equals the popped
identifier only when the payload has no `id` key. -/
theorem C10_payload_id_overrides
    (q job_id : String) (w : List String) (s : RedisState) (h : JobHash)
    (data : Dict)
    (hw : s.wait = w ++ [job_id])
    (hh : hashGet s.hashes job_id = some h)
    (hd : decodeData h.data = some data)
    (ht : dictGetD data "type" "" = q)
    (hnd : (data.map Prod.fst).Nodup) :
    ((get_next_job q s).1 = some (mkJob job_id data)) ∧
    (∀ v, dictGet data "id" = some v → dictGet (mkJob job_id data) "id" = some v) ∧
    (dictGet data "id" = none → dictGet (mkJob job_id data) "id" = some job_id) := by
  refine ⟨by rw [get_next_job_matched q job_id w s h data hw hh hd ht], ?_, ?_⟩
  · intro v hv
    unfold mkJob
    rw [dictGet_foldl_dictSet data [("id", job_id)] "id" hnd, hv]
    rfl
  · intro hnone
    unfold mkJob
    rw [dictGet_foldl_dictSet data [("id", job_id)] "id" hnd, hnone]
    rfl

/-- Witness for C10 on a concrete store: the payload's `"id": "payload-id"`
silently overrides the popped identifier `j1`. -/
theorem C10_payload_id_overrides_witness :
    dictGet (mkJob "j1" overridePayload) "id" = some "payload-id" :=
  (C10_payload_id_overrides "generate:zimage" "j1" [] stateOverride
      { data := DataField.valid overridePayload } overridePayload
      rfl (by decide) rfl (by decide) (by decide)).2.1 "payload-id" (by decide)

end FFmpegRest
